import Mathlib

/-!
Verification of the fenyr-ts trading engine core against its specification.

The definitions below are a shallow embedding of the TypeScript sources:
  - src/engine/risk-engine.ts      (RiskEngine: circuit breaker, canTrade, reset)
  - src/engine/hft-engine-v3.ts    (HFTEngineV3: evaluateAndExecute, executeOrder)
  - src/engine/stream-engine.ts    (LeadCoordinator.makeDecision,
                                    ParallelAgentSystem.updateConfigFromDecision,
                                    FullParallelEngine.hftTick / execute)
  - src/services/market-data.ts    (MarketDataService reconnect handling)
  - src/ws/websocket.ts            (WeexWebSocket.attemptReconnect)
  - the quant indicators module    (calculateOBI, calculateRSI)

JavaScript numbers are modelled as rationals (ℚ); `Math.round(x*10^k)/10^k`
is modelled with Mathlib's `round` (which equals `⌊x + 1/2⌋`, the same as
JavaScript's `Math.round` on finite values).  Mutation is modelled by
explicit state passing; `Partial<T>` patches are records of `Option` fields.
-/

namespace Fenyr

/-! ## Basic enumerations and records -/

/-- Order side as used by `RiskEngine.canTrade` and `executeOrder`
(the string union `'buy' | 'sell'`). -/
inductive Side
  | buy
  | sell
deriving DecidableEq, Repr

/-- Position side (the string union `'long' | 'short'`). -/
inductive PosSide
  | long
  | short
deriving DecidableEq, Repr

/-- Advisory action (the string union `'long' | 'short' | 'hold' | 'close'`
of `LeadDecision.action` in stream-engine.ts). -/
inductive Action
  | long
  | short
  | hold
  | close
deriving DecidableEq, Repr

/-- The engine's `currentPosition` payload `{ side, size }`
(hft-engine-v3.ts keeps no entry price). -/
structure Position where
  side : PosSide
  size : ℚ
deriving DecidableEq, Repr

/-- JavaScript `Math.round(x * 100) / 100` (two decimals). -/
def jsRound2 (x : ℚ) : ℚ := ((round (x * 100) : ℤ) : ℚ) / 100

/-- JavaScript `Math.round(x * 100000) / 100000` (five decimals, venue size
precision). -/
def jsRound5 (x : ℚ) : ℚ := ((round (x * 100000) : ℤ) : ℚ) / 100000

/-! ## Quant indicators (quant/indicators module)

Embeds `calculateOBI` and `calculateRSI` from the quant indicators source
file (the module imported as `../quant/indicators.js`). -/

/-- Order book level `{ price, quantity }`. -/
structure OrderBookLevel where
  price : ℚ
  quantity : ℚ
deriving DecidableEq, Repr

/-- Order book `{ bids, asks, timestamp }`. -/
structure OrderBook where
  bids : List OrderBookLevel
  asks : List OrderBookLevel
  timestamp : ℚ
deriving DecidableEq, Repr

/-- Local constant `bidQty` of `calculateOBI`: summed quantity over the top
`levels` bid levels (`orderBook.bids.slice(0, levels).reduce(...)`). -/
def obBidQty (ob : OrderBook) (levels : ℕ) : ℚ :=
  ((ob.bids.take levels).map OrderBookLevel.quantity).sum

/-- Local constant `askQty` of `calculateOBI`. -/
def obAskQty (ob : OrderBook) (levels : ℕ) : ℚ :=
  ((ob.asks.take levels).map OrderBookLevel.quantity).sum

/-- Embeds `calculateOBI(orderBook, levels)`: `(bidQty - askQty) /
(bidQty + askQty)` with an explicit zero-denominator guard returning 0. -/
def calculateOBI (ob : OrderBook) (levels : ℕ) : ℚ :=
  if obBidQty ob levels + obAskQty ob levels = 0 then 0
  else (obBidQty ob levels - obAskQty ob levels) / (obBidQty ob levels + obAskQty ob levels)

/-- Embeds `calculateRSI(prices, period)`.  `slice(-period)` is `drop
(length - period)`; the result is rounded to two decimals as in the source. -/
def calculateRSI (prices : List ℚ) (period : ℕ) : ℚ :=
  if prices.length < period + 1 then 50
  else
    let deltas := List.zipWith (fun a b => b - a) prices prices.tail
    let gains := deltas.map fun d => if 0 < d then d else 0
    let losses := deltas.map fun d => if d < 0 then -d else 0
    let avgGain := (gains.drop (gains.length - period)).sum / (period : ℚ)
    let avgLoss := (losses.drop (losses.length - period)).sum / (period : ℚ)
    if avgLoss = 0 then 100
    else jsRound2 (100 - 100 / (1 + avgGain / avgLoss))

/-! ## RiskEngine (src/engine/risk-engine.ts) -/

/-- Embeds `RiskConfig` (`allowedTradingTimes` is always `null` in the
constructing code and never read by the embedded operations, so it is
omitted). -/
structure RiskConfig where
  maxDailyLoss : ℚ
  minEquity : ℚ
  maxDrawdown : ℚ
  maxPositionSize : ℚ
  maxOpenOrders : ℕ
deriving DecidableEq, Repr

/-- Embeds `AccountState`. -/
structure AccountState where
  equity : ℚ
  initialEquity : ℚ
  dailyPnL : ℚ
  peakEquity : ℚ
  openOrdersCount : ℕ
  positionSize : ℚ
deriving DecidableEq, Repr

/-- Embeds the mutable fields of class `RiskEngine`. -/
structure RiskEngine where
  config : RiskConfig
  state : AccountState
  isCircuitBreakerTripped : Bool
  tripReason : String
deriving DecidableEq, Repr

/-- Embeds the `RiskEngine` constructor with a given `initialEquity`. -/
def RiskEngine.init (config : RiskConfig) (initialEquity : ℚ) : RiskEngine :=
  { config := config
    state :=
      { equity := initialEquity
        initialEquity := initialEquity
        dailyPnL := 0
        peakEquity := initialEquity
        openOrdersCount := 0
        positionSize := 0 }
    isCircuitBreakerTripped := false
    tripReason := "" }

/-- Embeds `Partial<AccountState>`: each field optionally present. -/
structure StatePatch where
  equity : Option ℚ
  initialEquity : Option ℚ
  dailyPnL : Option ℚ
  peakEquity : Option ℚ
  openOrdersCount : Option ℕ
  positionSize : Option ℚ
deriving DecidableEq, Repr

/-- The object spread `{ ...this.state, ...newState }`. -/
def applyPatch (s : AccountState) (p : StatePatch) : AccountState :=
  { equity := p.equity.getD s.equity
    initialEquity := p.initialEquity.getD s.initialEquity
    dailyPnL := p.dailyPnL.getD s.dailyPnL
    peakEquity := p.peakEquity.getD s.peakEquity
    openOrdersCount := p.openOrdersCount.getD s.openOrdersCount
    positionSize := p.positionSize.getD s.positionSize }

/-- Embeds `RiskEngine.updateState`: merge the patch, lift `peakEquity` to
the new equity if exceeded, recompute `dailyPnL = equity - initialEquity`. -/
def RiskEngine.updateState (e : RiskEngine) (p : StatePatch) : RiskEngine :=
  let s1 := applyPatch e.state p
  let s2 := if s1.peakEquity < s1.equity then { s1 with peakEquity := s1.equity } else s1
  { e with state := { s2 with dailyPnL := s2.equity - s2.initialEquity } }

/-- Embeds `tripCircuitBreaker(reason)` (the console output is dropped). -/
def RiskEngine.tripCircuitBreaker (e : RiskEngine) (reason : String) : RiskEngine :=
  { e with isCircuitBreakerTripped := true, tripReason := reason }

/-- The local `newSize` of `canTrade`: the projected post-trade position
(`positionSize + size` on buy, `positionSize - size` on sell). -/
def projectedSize (e : RiskEngine) (side : Side) (size : ℚ) : ℚ :=
  match side with
  | Side.buy => e.state.positionSize + size
  | Side.sell => e.state.positionSize - size

/-- Embeds `RiskEngine.canTrade(side, size, price)`.  Returns the boolean
result together with the engine after the call (the call can trip the
breaker).  The trip-reason strings keep the source wording without the
interpolated numbers. -/
def RiskEngine.canTrade (e : RiskEngine) (side : Side) (size price : ℚ) :
    Bool × RiskEngine :=
  if e.isCircuitBreakerTripped then (false, e)
  else if e.config.maxPositionSize < |projectedSize e side size| then (false, e)
  else if e.state.dailyPnL < -e.config.maxDailyLoss then
    (false, e.tripCircuitBreaker "Daily Loss Limit Hit")
  else if e.state.equity < e.config.minEquity then
    (false, e.tripCircuitBreaker "Hard Stoploss Limit")
  else if e.config.maxDrawdown < (e.state.peakEquity - e.state.equity) / e.state.peakEquity then
    (false, e.tripCircuitBreaker "Max Drawdown Hit")
  else (true, e)

/-- Embeds `RiskEngine.reset()`. -/
def RiskEngine.reset (e : RiskEngine) : RiskEngine :=
  { e with isCircuitBreakerTripped := false, tripReason := "" }

/-- One externally invokable `RiskEngine` operation. -/
inductive RiskOp
  | update (p : StatePatch)
  | canTrade (side : Side) (size price : ℚ)
  | reset
deriving DecidableEq, Repr

/-- Whether an operation sequence contains a `reset()` call. -/
def hasReset : List RiskOp → Bool
  | [] => false
  | RiskOp.reset :: _ => true
  | _ :: rest => hasReset rest

/-- Runs a sequence of `RiskEngine` operations, returning the final engine
and the list of `canTrade` results in call order. -/
def runOps : RiskEngine → List RiskOp → RiskEngine × List Bool
  | e, [] => (e, [])
  | e, RiskOp.update p :: rest => runOps (e.updateState p) rest
  | e, RiskOp.canTrade sd sz pr :: rest =>
    let r := e.canTrade sd sz pr
    let t := runOps r.2 rest
    (t.1, r.1 :: t.2)
  | e, RiskOp.reset :: rest => runOps e.reset rest

/-! ## HFTEngineV3 hot path (src/engine/hft-engine-v3.ts) -/

/-- Private field `minConf = 0.6` of `HFTEngineV3`. -/
def minConfV3 : ℚ := 3 / 5

/-- Private field `decaySeconds = 60` (the dead-man-switch timeout). -/
def decaySecondsV3 : ℚ := 60

/-- The lead coordinator decision as consumed by `HFTEngineV3` (the fields
of `LeadDecision` the hot path reads: `action`, `confidence`, `timestamp`;
`positionSize` is carried along for completeness). -/
structure LeadDecision where
  action : Action
  confidence : ℚ
  positionSize : ℚ
  timestamp : ℚ
deriving DecidableEq, Repr

/-- The dead-man switch of `evaluateAndExecute`: effective confidence and
action.  A missing decision, or one whose age `(now - timestamp)/1000`
exceeds `decaySeconds`, counts as confidence 0 and action `hold`. -/
def effectiveOf (decision : Option LeadDecision) (now : ℚ) : ℚ × Action :=
  match decision with
  | none => (0, Action.hold)
  | some d =>
    if decaySecondsV3 < (now - d.timestamp) / 1000 then (0, Action.hold)
    else (d.confidence, d.action)

/-- The local RSI of `evaluateAndExecute`:
`priceHistory.length > 14 ? calculateRSI(priceHistory, 14) : 50`. -/
def localRSIOf (hist : List ℚ) : ℚ :=
  if 14 < hist.length then calculateRSI hist 14 else 50

/-- The `hftConfirm` flag: trusted outright above confidence 0.7, otherwise
technical confirmation by RSI per direction; `close` is always confirmed. -/
def hftConfirmOf (eff : ℚ) (action : Action) (rsi : ℚ) : Bool :=
  (if 7 / 10 < eff then true
   else (decide (action = Action.long) && decide (rsi < 70)) ||
        (decide (action = Action.short) && decide (30 < rsi))) ||
  decide (action = Action.close)

/-- An order request passed to `executeOrder(side, size, price, reason)`. -/
structure OrderRequest where
  side : Side
  size : ℚ
  price : ℚ
deriving DecidableEq, Repr

/-- The open-order size `config.riskPerTrade * 10000` used by
`evaluateAndExecute` for `AI_LONG` / `AI_SHORT` orders. -/
def hftV3OrderSize (riskPerTrade : ℚ) : ℚ := riskPerTrade * 10000

/-- The dispatch arm of `evaluateAndExecute`: which `executeOrder` call is
made for a given action and current position.
`long` fires when flat or short, `short` when flat or long, `close` when a
position exists (with the opposite side and the position's size). -/
def dispatchIntent (action : Action) (pos : Option Position) (riskPerTrade price : ℚ) :
    Option OrderRequest :=
  match action, pos with
  | Action.long, none => some ⟨Side.buy, hftV3OrderSize riskPerTrade, price⟩
  | Action.long, some p =>
    if p.side = PosSide.short then some ⟨Side.buy, hftV3OrderSize riskPerTrade, price⟩ else none
  | Action.short, none => some ⟨Side.sell, hftV3OrderSize riskPerTrade, price⟩
  | Action.short, some p =>
    if p.side = PosSide.long then some ⟨Side.sell, hftV3OrderSize riskPerTrade, price⟩ else none
  | Action.close, some p =>
    some ⟨if p.side = PosSide.long then Side.sell else Side.buy, p.size, price⟩
  | Action.close, none => none
  | Action.hold, _ => none

/-- Embeds the decision phase of `HFTEngineV3.evaluateAndExecute`: the order
request handed to `executeOrder`, or `none` when no order is attempted
(stale or weak confidence, failed confirmation, or cooldown).  The 5000 ms
cooldown is `now - lastExecutionTime < 5000`. -/
def evaluateOrder (decision : Option LeadDecision) (price now : ℚ) (hist : List ℚ)
    (pos : Option Position) (lastExec riskPerTrade : ℚ) : Option OrderRequest :=
  if minConfV3 < (effectiveOf decision now).1 ∧
      hftConfirmOf (effectiveOf decision now).1 (effectiveOf decision now).2 (localRSIOf hist)
        = true then
    if now - lastExec < 5000 then none
    else dispatchIntent (effectiveOf decision now).2 pos riskPerTrade price
  else none

/-- Embeds the `weexSide` computation of `HFTEngineV3.executeOrder`:
buy maps to 2 when currently short else 1; sell maps to 4 when currently
long else 3 (venue codes 1=open-long, 2=close-short, 3=open-short,
4=close-long). -/
def weexSideCode (side : Side) (pos : Option Position) : ℕ :=
  match side with
  | Side.buy => match pos with
    | some p => if p.side = PosSide.short then 2 else 1
    | none => 1
  | Side.sell => match pos with
    | some p => if p.side = PosSide.long then 4 else 3
    | none => 3

/-- The composed side code of the hot path: the venue code produced for an
intended action given the current position (dispatch arm of
`evaluateAndExecute` composed with the `weexSide` computation of
`executeOrder`); `none` when no order would be dispatched. -/
def sideCodeOf (action : Action) (pos : Option Position) (riskPerTrade price : ℚ) :
    Option ℕ :=
  (dispatchIntent action pos riskPerTrade price).map fun r => weexSideCode r.side pos

/-- The mutable hot-path state touched by `HFTEngineV3.executeOrder`. -/
structure HotState where
  currentPosition : Option Position
  lastExecutionTime : ℚ
  risk : RiskEngine
deriving DecidableEq, Repr

/-- A `Partial<AccountState>` patch carrying only `positionSize` (the
`updateState` argument of `executeOrder`). -/
def posSizePatch (q : ℚ) : StatePatch :=
  ⟨none, none, none, none, none, some q⟩

/-- Embeds `HFTEngineV3.executeOrder(side, size, price)`.  `placeOrderOk`
is the outcome of the awaited exchange call (`false` models a thrown
rejection caught by the `catch` block).  A risk rejection returns before
any mutation (though `canTrade` itself may have tripped the breaker); a
failed exchange call leaves position, cooldown timestamp and risk state
untouched.  On success the position is set per venue code, the cooldown
timestamp is set to `now`, and the risk engine's `positionSize` is synced. -/
def executeOrder (st : HotState) (side : Side) (size price now : ℚ) (placeOrderOk : Bool) :
    HotState :=
  let gate := st.risk.canTrade side size price
  if gate.1 = false then { st with risk := gate.2 }
  else if placeOrderOk = false then { st with risk := gate.2 }
  else
    let code := weexSideCode side st.currentPosition
    let pos2 : Option Position :=
      if code = 1 then some ⟨PosSide.long, size⟩
      else if code = 3 then some ⟨PosSide.short, size⟩
      else none
    { currentPosition := pos2
      lastExecutionTime := now
      risk := gate.2.updateState (posSizePatch (match pos2 with | some p => p.size | none => 0)) }

/-! ## LeadCoordinator decision storage (src/engine/stream-engine.ts) -/

/-- The coordinator model response as parsed from JSON: every field may be
absent.  A JavaScript falsy value (number 0, empty string) triggers the
`||` default exactly like an absent field, so 0 and the empty string are
kept representable. -/
structure ParsedDecision where
  action : Option String
  confidence : Option ℚ
  positionSize : Option ℚ
  reasoning : Option String
deriving DecidableEq, Repr

/-- JavaScript `v || d` for a possibly absent number (0 is falsy). -/
def jsOrQ (v : Option ℚ) (d : ℚ) : ℚ :=
  match v with
  | some x => if x = 0 then d else x
  | none => d

/-- JavaScript `v || d` for a possibly absent string (empty is falsy). -/
def jsOrS (v : Option String) (d : String) : String :=
  match v with
  | some s => if s = "" then d else s
  | none => d

/-- The decision record stored by `LeadCoordinator.makeDecision` as
`lastDecision` (fields the bound claims inspect). -/
structure StoredDecision where
  action : String
  confidence : ℚ
  positionSize : ℚ
  reasoning : String
  timestamp : ℚ
deriving DecidableEq, Repr

/-- Embeds the post-processing of `LeadCoordinator.makeDecision`:
`action || 'hold'`, `confidence || 0.5`, `positionSize || 0.01`,
`reasoning || 'No reasoning'`, with `timestamp = Date.now()`.  No clamping
is applied to any numeric field. -/
def storeDecision (p : ParsedDecision) (now : ℚ) : StoredDecision :=
  { action := jsOrS p.action "hold"
    confidence := jsOrQ p.confidence (1 / 2)
    positionSize := jsOrQ p.positionSize (1 / 100)
    reasoning := jsOrS p.reasoning "No reasoning"
    timestamp := now }

/-- The fallback object returned by `callLeadLLM` when the model call or
JSON parse throws: `{ action: 'hold', confidence: 0.5, reasoning: ... }`
(no `positionSize`). -/
def leadLLMErrorFallback : ParsedDecision :=
  { action := some "hold"
    confidence := some (1 / 2)
    positionSize := none
    reasoning := some "API error - defaulting to hold" }

/-- Embeds `TradingConfig` of stream-engine.ts (the `weights` record is
flattened into one field per channel). -/
structure TradingConfig where
  obiWeight : ℚ
  rsiWeight : ℚ
  emaWeight : ℚ
  momentumWeight : ℚ
  signalThreshold : ℚ
  riskPerTrade : ℚ
  regime : String
  bias : String
  biasStrength : ℚ
deriving DecidableEq, Repr

/-- Embeds `ParallelAgentSystem.updateConfigFromDecision`: bias from the
action, `riskPerTrade = min(0.05, positionSize)`, threshold 0.2 above
confidence 0.7 else 0.35. -/
def updateConfigFromDecision (cfg : TradingConfig) (d : StoredDecision) : TradingConfig :=
  let cfg1 :=
    if d.action = "long" then { cfg with bias := "bullish", biasStrength := d.confidence }
    else if d.action = "short" then { cfg with bias := "bearish", biasStrength := -d.confidence }
    else { cfg with bias := "neutral", biasStrength := 0 }
  { cfg1 with
    riskPerTrade := min (1 / 20) d.positionSize
    signalThreshold := if 7 / 10 < d.confidence then 1 / 5 else 7 / 20 }

/-! ## FullParallelEngine execution gate (src/engine/stream-engine.ts) -/

/-- The `shouldExecute` flag of `FullParallelEngine.hftTick`:
`pendingAction !== null || Math.abs(biasedSignal) >= signalThreshold`. -/
def shouldExecute (pending : Option Action) (biased threshold : ℚ) : Bool :=
  pending.isSome || decide (threshold ≤ |biased|)

/-- The `autoAction` of `hftTick`: long on `biasedSignal > threshold`,
short on `biasedSignal < -threshold`, otherwise nothing (strict
comparisons). -/
def autoAction (biased threshold : ℚ) : Option Action :=
  if threshold < biased then some Action.long
  else if biased < -threshold then some Action.short
  else none

/-- The action `hftTick` hands to `execute`: the pending action when one is
queued and the gate passes, else the auto action when the gate passes,
else nothing. -/
def hftTickAction (pending : Option Action) (biased threshold : ℚ) : Option Action :=
  if shouldExecute pending biased threshold = true then
    match pending with
    | some a => some a
    | none => autoAction biased threshold
  else none

/-- The open-order size of `FullParallelEngine.execute`:
`min(equity * riskPerTrade / 1000, 0.01)` rounded to five decimals. -/
def fullParallelOpenSize (equity riskPerTrade : ℚ) : ℚ :=
  jsRound5 (min (equity * riskPerTrade / 1000) (1 / 100))

/-- Follows the spec's words (spec §4.5 step 6 and §9): the standardized
order size `equity × riskPerTrade / currentPrice`, clamped to
`maxPositionSize` and rounded to venue precision (five decimals).  This is
the specification-side definition for comparison with the source sizing;
the spec flags the source's `/1000` and `*10000` variants as bugs. -/
def specOrderSize (equity riskPerTrade price maxPositionSize : ℚ) : ℚ :=
  jsRound5 (min (equity * riskPerTrade / price) maxPositionSize)

/-! ## MarketDataService reconnect handling (src/services/market-data.ts)
and WeexWebSocket backoff (src/ws/websocket.ts) -/

/-- The connection-management state of `MarketDataService` (second variant
in market-data.ts, the one with `failCount`): whether a reconnect timer is
already pending, the consecutive-failure count, and whether the degraded
polling fallback was entered. -/
structure FeedConnState where
  failCount : ℕ
  isConnected : Bool
  reconnectPending : Bool
  pollingFallback : Bool
deriving DecidableEq, Repr

/-- Embeds `MarketDataService.handleClose`: if a reconnect is already
pending do nothing, otherwise mark disconnected, bump `failCount` and
schedule `connect()` after a constant 2000 ms (`setTimeout(..., 2000)`).
The returned option is the scheduled delay in milliseconds.  The first
variant of the class schedules the same constant 2000 ms directly in its
close handler. -/
def handleClose (s : FeedConnState) : FeedConnState × Option ℚ :=
  if s.reconnectPending = true then (s, none)
  else
    ({ s with isConnected := false, failCount := s.failCount + 1, reconnectPending := true },
      some 2000)

/-- Embeds the guard of `MarketDataService.connect`: with more than five
consecutive failures the service switches to the degraded polling fallback
instead of opening a socket. -/
def connectAttempt (s : FeedConnState) : FeedConnState :=
  if 5 < s.failCount then { s with pollingFallback := true } else s

/-- Embeds the delay of `WeexWebSocket.attemptReconnect` in
src/ws/websocket.ts: `min(1000 * 2^attempts, 30000)` milliseconds, where
`attempts` has already been incremented (so it is the index of the attempt
being scheduled, starting at 1). -/
def weexWsReconnectDelayMs (attempt : ℕ) : ℚ :=
  min ((1000 : ℚ) * 2 ^ attempt) 30000

/-! ## Concrete sample values used by witnesses and counterexamples -/

/-- A risk engine with the breaker already tripped (used to instantiate
latch theorems). -/
def trippedSample : RiskEngine :=
  { config := ⟨200, 700, 1 / 20, 1 / 20, 3⟩
    state := ⟨940, 1000, -60, 1000, 0, 0⟩
    isCircuitBreakerTripped := true
    tripReason := "Max Drawdown Hit" }

/-- Scenario 3 of the spec: the engine constructed with equity 1000,
`maxDrawdown = 0.05`, `minEquity = 700`, `maxDailyLoss = 200`,
`maxPositionSize = 0.05`. -/
def drawdownEngine0 : RiskEngine :=
  RiskEngine.init ⟨200, 700, 1 / 20, 1 / 20, 3⟩ 1000

/-- A state patch setting only `equity`. -/
def patchEquity (q : ℚ) : StatePatch :=
  ⟨some q, none, none, none, none, none⟩

/-- Scenario 3 trace: drop equity to 940 (peak stays 1000), call
`canTrade`, `reset()`, then call `canTrade` again with unchanged state. -/
def drawdownTrace : List RiskOp :=
  [RiskOp.update (patchEquity 940), RiskOp.canTrade Side.buy (1 / 100) 88000,
   RiskOp.reset, RiskOp.canTrade Side.buy (1 / 100) 88000]

/-- Scenario 3 trace up to and including the `reset()`. -/
def drawdownTraceReset : List RiskOp :=
  [RiskOp.update (patchEquity 940), RiskOp.canTrade Side.buy (1 / 100) 88000,
   RiskOp.reset]

/-- Scenario 3 trace where, after the `reset()`, equity is restored to 1000
before the next `canTrade`. -/
def drawdownTraceRecover : List RiskOp :=
  [RiskOp.update (patchEquity 940), RiskOp.canTrade Side.buy (1 / 100) 88000,
   RiskOp.reset, RiskOp.update (patchEquity 1000),
   RiskOp.canTrade Side.buy (1 / 100) 88000]

/-- The hot-path state used to instantiate the failed-dispatch theorem. -/
def haltedHot : HotState :=
  { currentPosition := none
    lastExecutionTime := 0
    risk := trippedSample }

/-- A well-formed model response with out-of-range numeric fields
(confidence 2, positionSize 0.5). -/
def oversizedParsed : ParsedDecision :=
  { action := some "long"
    confidence := some 2
    positionSize := some (1 / 2)
    reasoning := some "very sure" }

/-! ## Helper lemmas -/

/-- A `canTrade` call never changes the account state: it only reads it and
possibly flips the breaker latch. -/
theorem canTrade_state_eq (e : RiskEngine) (side : Side) (size price : ℚ) :
    (e.canTrade side size price).2.state = e.state := by
  unfold RiskEngine.canTrade RiskEngine.tripCircuitBreaker
  split_ifs <;> rfl

/-- A tripped engine rejects immediately and is returned unchanged. -/
theorem canTrade_of_tripped (e : RiskEngine) (side : Side) (size price : ℚ)
    (he : e.isCircuitBreakerTripped = true) :
    e.canTrade side size price = (false, e) := by
  unfold RiskEngine.canTrade
  rw [he]
  simp

/-- `updateState` leaves the breaker latch untouched. -/
theorem updateState_tripped (e : RiskEngine) (p : StatePatch) :
    (e.updateState p).isCircuitBreakerTripped = e.isCircuitBreakerTripped := rfl

/-- Latch invariant over traces: from a tripped engine, a reset-free
operation sequence yields only `false` answers from `canTrade` and ends
still tripped. -/
theorem trippedRunFalse (ops : List RiskOp) (e : RiskEngine)
    (he : e.isCircuitBreakerTripped = true) (hn : hasReset ops = false) :
    ((runOps e ops).2.all fun b => !b) = true ∧
    (runOps e ops).1.isCircuitBreakerTripped = true := by
  induction ops generalizing e with
  | nil => simpa [runOps] using he
  | cons op rest ih =>
    cases op with
    | update p =>
      have hn' : hasReset rest = false := by simpa [hasReset] using hn
      have he' : (e.updateState p).isCircuitBreakerTripped = true := by
        rw [updateState_tripped]; exact he
      simpa [runOps] using ih (e.updateState p) he' hn'
    | canTrade sd sz pr =>
      have hn' : hasReset rest = false := by simpa [hasReset] using hn
      have hct := canTrade_of_tripped e sd sz pr he
      have htail := ih e he hn'
      simp [runOps, hct, htail.1, htail.2]
    | reset => exact absurd hn (by simp [hasReset])

/-! ## Claim theorems -/

/-- Claim C1 (counterexample).  The claim states that after `reset()` the
next `canTrade` returns true again in scenario 3 (equity 1000 → 940, peak
1000, `maxDrawdown = 0.05`).  On the code the post-reset `canTrade` call
re-evaluates the unchanged state, re-trips on the still-exceeded drawdown
and returns false: the trace's `canTrade` results are `[false, false]`,
not `[false, true]`. -/
theorem reset_not_restore_counterexample :
    (runOps drawdownEngine0 drawdownTrace).2 = [false, false] ∧
    ¬ (runOps drawdownEngine0 drawdownTrace).2 = [false, true] := by
  norm_num [runOps, drawdownTrace, drawdownEngine0, RiskEngine.init, RiskEngine.updateState,
    applyPatch, patchEquity, RiskEngine.canTrade, RiskEngine.reset,
    RiskEngine.tripCircuitBreaker, projectedSize, abs]

/-- Claim C1 (amended).  Once the breaker has tripped, every subsequent
`canTrade` call returns false, for all arguments, until `reset()` is
called, and the latch stays set.  `reset()` clears the latch, but `canTrade`
returns true again only once the state no longer violates a trip condition:
in scenario 3 the first post-reset `canTrade` re-trips on the unchanged
drawdown and returns false, while after equity recovers to 1000 the call
returns true. -/
theorem breaker_latch_and_reset :
    (∀ (e : RiskEngine) (ops : List RiskOp),
        e.isCircuitBreakerTripped = true → hasReset ops = false →
        ((runOps e ops).2.all fun b => !b) = true ∧
        (runOps e ops).1.isCircuitBreakerTripped = true) ∧
    ((runOps drawdownEngine0 drawdownTrace).2 = [false, false] ∧
     (runOps drawdownEngine0 drawdownTraceReset).1.isCircuitBreakerTripped = false ∧
     (runOps drawdownEngine0 drawdownTrace).1.isCircuitBreakerTripped = true ∧
     (runOps drawdownEngine0 drawdownTraceRecover).2 = [false, true]) :=
  ⟨fun e ops he hn => trippedRunFalse ops e he hn, by
    norm_num [runOps, drawdownTrace, drawdownTraceReset, drawdownTraceRecover,
      drawdownEngine0, RiskEngine.init, RiskEngine.updateState, applyPatch, patchEquity,
      RiskEngine.canTrade, RiskEngine.reset, RiskEngine.tripCircuitBreaker,
      projectedSize, abs]⟩

/-- Claim C1 (witness). -/
theorem breaker_latch_and_reset_witness :
    ((runOps trippedSample [RiskOp.canTrade Side.buy 1 2]).2.all fun b => !b) = true :=
  (breaker_latch_and_reset.1 trippedSample [RiskOp.canTrade Side.buy 1 2]
    rfl rfl).1

/-- Claim C2.  Postcondition of `RiskEngine.canTrade` for every state and
every `(side, size, price)`: it returns false with the engine unchanged
when already tripped; otherwise returns false without tripping when the
projected post-trade absolute position exceeds `maxPositionSize`;
otherwise trips and returns false when `dailyPnL < -maxDailyLoss`, or
`equity < minEquity`, or `(peakEquity - equity)/peakEquity > maxDrawdown`;
otherwise returns true with the engine unchanged. -/
theorem canTrade_postcondition (e : RiskEngine) (side : Side) (size price : ℚ) :
    (e.isCircuitBreakerTripped = true →
      e.canTrade side size price = (false, e)) ∧
    (e.isCircuitBreakerTripped = false →
      e.config.maxPositionSize < |projectedSize e side size| →
      e.canTrade side size price = (false, e)) ∧
    (e.isCircuitBreakerTripped = false →
      ¬ e.config.maxPositionSize < |projectedSize e side size| →
      (e.state.dailyPnL < -e.config.maxDailyLoss ∨
       e.state.equity < e.config.minEquity ∨
       e.config.maxDrawdown < (e.state.peakEquity - e.state.equity) / e.state.peakEquity) →
      (e.canTrade side size price).1 = false ∧
      (e.canTrade side size price).2.isCircuitBreakerTripped = true) ∧
    (e.isCircuitBreakerTripped = false →
      ¬ e.config.maxPositionSize < |projectedSize e side size| →
      ¬ (e.state.dailyPnL < -e.config.maxDailyLoss ∨
         e.state.equity < e.config.minEquity ∨
         e.config.maxDrawdown < (e.state.peakEquity - e.state.equity) / e.state.peakEquity) →
      e.canTrade side size price = (true, e)) := by
  refine ⟨fun ht => canTrade_of_tripped e side size price ht, ?_, ?_, ?_⟩
  · intro ht hsize
    unfold RiskEngine.canTrade
    rw [ht]
    simp [hsize]
  · intro ht hsize hcond
    unfold RiskEngine.canTrade
    rw [ht]
    rcases hcond with h | h | h
    · simp [hsize, h, RiskEngine.tripCircuitBreaker]
    · simp only [Bool.false_eq_true, if_false, if_neg hsize, RiskEngine.tripCircuitBreaker]
      split_ifs <;> simp
    · simp only [Bool.false_eq_true, if_false, if_neg hsize, RiskEngine.tripCircuitBreaker]
      split_ifs <;> simp
  · intro ht hsize hcond
    push_neg at hcond
    unfold RiskEngine.canTrade
    rw [ht]
    simp [hsize, not_lt.mpr hcond.1, not_lt.mpr hcond.2.1, not_lt.mpr hcond.2.2]

/-- Claim C2 (witness). -/
theorem canTrade_postcondition_witness :
    RiskEngine.canTrade trippedSample Side.buy 1 2 = (false, trippedSample) :=
  (canTrade_postcondition trippedSample Side.buy 1 2).1 rfl

/-- Claim C3.  Dead-man switch: an advisory whose age `now - timestamp`
exceeds the decay window is treated as action `hold` with effective
confidence 0, and the evaluation issues no order, regardless of the stored
confidence and action. -/
theorem stale_advisory_no_order (d : LeadDecision) (price now : ℚ) (hist : List ℚ)
    (pos : Option Position) (lastExec riskPerTrade : ℚ)
    (hstale : decaySecondsV3 < (now - d.timestamp) / 1000) :
    effectiveOf (some d) now = (0, Action.hold) ∧
    evaluateOrder (some d) price now hist pos lastExec riskPerTrade = none := by
  have heff : effectiveOf (some d) now = (0, Action.hold) := by
    simp [effectiveOf, hstale]
  refine ⟨heff, ?_⟩
  unfold evaluateOrder
  rw [heff]
  norm_num [minConfV3]

/-- Claim C3 (witness): an advisory generated two decay windows ago
(timestamp 0, now 120000 ms) with confidence 0.95 and action long yields
no order. -/
theorem stale_advisory_no_order_witness :
    evaluateOrder (some ⟨Action.long, 19 / 20, 1 / 100, 0⟩) 88000 120000 [] none 0 (1 / 50)
      = none :=
  (stale_advisory_no_order ⟨Action.long, 19 / 20, 1 / 100, 0⟩ 88000 120000 [] none 0 (1 / 50)
    (by norm_num [decaySecondsV3])).2

/-- Claim C4.  Side-code mapping of the hot path as a function of intended
direction and current position side: (long, flat) ↦ 1, (long, short) ↦ 2,
(short, flat) ↦ 3, (short, long) ↦ 4, (close, long) ↦ 4,
(close, short) ↦ 2, matching the venue codes 1=open-long, 2=close-short,
3=open-short, 4=close-long. -/
theorem side_code_mapping (sz riskPerTrade price : ℚ) :
    sideCodeOf Action.long none riskPerTrade price = some 1 ∧
    sideCodeOf Action.long (some ⟨PosSide.short, sz⟩) riskPerTrade price = some 2 ∧
    sideCodeOf Action.short none riskPerTrade price = some 3 ∧
    sideCodeOf Action.short (some ⟨PosSide.long, sz⟩) riskPerTrade price = some 4 ∧
    sideCodeOf Action.close (some ⟨PosSide.long, sz⟩) riskPerTrade price = some 4 ∧
    sideCodeOf Action.close (some ⟨PosSide.short, sz⟩) riskPerTrade price = some 2 := by
  simp [sideCodeOf, dispatchIntent, weexSideCode]

/-- Claim C5 (code bug).  The spec standardizes the open-order size as
`equity × riskPerTrade / currentPrice`, clamped to `maxPositionSize` and
rounded to five decimals, and flags the source's sizing as a bug.  At the
spec's own example input (equity 1000, riskPerTrade 0.02, price 88000,
maxPositionSize 0.05) the spec size is 0.00023, while
`FullParallelEngine.execute` computes `min(equity*riskPerTrade/1000, 0.01)`
= 0.01 and `HFTEngineV3.evaluateAndExecute` computes `riskPerTrade*10000`
= 200; neither matches the specified size. -/
theorem order_sizing_divergence :
    specOrderSize 1000 (1 / 50) 88000 (1 / 20) = 23 / 100000 ∧
    fullParallelOpenSize 1000 (1 / 50) = 1 / 100 ∧
    hftV3OrderSize (1 / 50) = 200 ∧
    fullParallelOpenSize 1000 (1 / 50) ≠ specOrderSize 1000 (1 / 50) 88000 (1 / 20) ∧
    hftV3OrderSize (1 / 50) ≠ specOrderSize 1000 (1 / 50) 88000 (1 / 20) := by
  norm_num [specOrderSize, fullParallelOpenSize, hftV3OrderSize, jsRound5, min_def, round_eq]

/-- Claim C6 (counterexample).  At the exact boundaries the code does not
attempt an order: with no pending action and `|biasedSignal| = threshold`
the gate passes but `autoAction` needs a strict inequality, so `hftTick`
executes nothing; and in `HFTEngineV3` an effective confidence exactly
equal to `minConf` fails the strict `>` gate, so `evaluateAndExecute`
issues nothing even with confirmation, cooldown and position all
favourable. -/
theorem boundary_equality_counterexample :
    shouldExecute none (3 / 10) (3 / 10) = true ∧
    hftTickAction none (3 / 10) (3 / 10) = none ∧
    evaluateOrder (some ⟨Action.long, 3 / 5, 1 / 100, 0⟩) 88000 0 [] none (-1000000) (1 / 50)
      = none := by
  refine ⟨?_, ?_, ?_⟩ <;>
    norm_num [shouldExecute, hftTickAction, autoAction, evaluateOrder, effectiveOf,
      minConfV3, decaySecondsV3, hftConfirmOf, localRSIOf, dispatchIntent, abs]

/-- Claim C6 (amended).  A biased signal with `|s'|` exactly equal to
`signalThreshold` passes the `shouldExecute` gate (the comparison is `≥`),
and a queued pending action is then executed; but the auto-execution path
requires a strict `|s'| > threshold`, so exact equality alone triggers no
order.  In `HFTEngineV3` the confidence gate is strict (`>`), so an
effective confidence exactly equal to `minConf` never triggers an order
attempt. -/
theorem boundary_gate_amended :
    (∀ (pending : Option Action) (biased threshold : ℚ), |biased| = threshold →
        shouldExecute pending biased threshold = true) ∧
    (∀ (biased threshold : ℚ), |biased| = threshold →
        hftTickAction none biased threshold = autoAction biased threshold ∧
        autoAction biased threshold = none) ∧
    (∀ (a : Action) (biased threshold : ℚ),
        hftTickAction (some a) biased threshold = some a) ∧
    (∀ (d : LeadDecision) (price now : ℚ) (hist : List ℚ) (pos : Option Position)
        (lastExec riskPerTrade : ℚ),
        d.confidence = minConfV3 →
        ¬ decaySecondsV3 < (now - d.timestamp) / 1000 →
        evaluateOrder (some d) price now hist pos lastExec riskPerTrade = none) := by
  refine ⟨?_, ?_, ?_, ?_⟩
  · intro pending biased threshold h
    simp [shouldExecute, h.symm.le]
  · intro biased threshold h
    have h1 : ¬ threshold < biased := not_lt.mpr (h ▸ le_abs_self biased)
    have h2 : ¬ biased < -threshold := not_lt.mpr (by rw [← h]; exact neg_abs_le biased)
    constructor
    · simp [hftTickAction, shouldExecute, h]
    · simp [autoAction, h1, h2]
  · intro a biased threshold
    simp [hftTickAction, shouldExecute]
  · intro d price now hist pos lastExec riskPerTrade hconf hfresh
    have heff : effectiveOf (some d) now = (d.confidence, d.action) := by
      simp [effectiveOf, hfresh]
    unfold evaluateOrder
    rw [heff, hconf]
    simp [lt_irrefl]

/-- Claim C6 (witness). -/
theorem boundary_gate_amended_witness :
    shouldExecute none (3 / 10) (3 / 10) = true ∧
    hftTickAction (some Action.close) (3 / 10) (3 / 10) = some Action.close ∧
    evaluateOrder (some ⟨Action.long, 3 / 5, 1 / 100, 0⟩) 88000 0 [] none (-1000000) (1 / 50)
      = none :=
  ⟨boundary_gate_amended.1 none (3 / 10) (3 / 10) (by norm_num),
   boundary_gate_amended.2.2.1 Action.close (3 / 10) (3 / 10),
   boundary_gate_amended.2.2.2 ⟨Action.long, 3 / 5, 1 / 100, 0⟩ 88000 0 [] none
     (-1000000) (1 / 50) rfl (by norm_num [decaySecondsV3])⟩

/-- Claim C7 (counterexample).  A well-formed model response whose numeric
fields are out of range is stored unclamped by `makeDecision`: confidence
2 escapes `[0, 1]` and positionSizeHint 0.5 escapes `[0.005, 0.05]`. -/
theorem advisory_bounds_counterexample :
    (storeDecision oversizedParsed 0).confidence = 2 ∧
    ¬ (storeDecision oversizedParsed 0).confidence ≤ 1 ∧
    (storeDecision oversizedParsed 0).positionSize = 1 / 2 ∧
    ¬ (storeDecision oversizedParsed 0).positionSize ≤ 1 / 20 := by
  norm_num [storeDecision, oversizedParsed, jsOrQ, jsOrS]

/-- Claim C7 (amended).  The stored decision's numeric fields are exactly
the model response's values when present and truthy, with defaults 0.5
(confidence) and 0.01 (positionSize) otherwise; the defaults, and hence
every advisory built from a missing or error response, lie inside `[0, 1]`
and `[0.005, 0.05]`, but no clamping is applied to present values.  The
only clamp in the pipeline is `riskPerTrade = min(0.05, positionSize)`
when the trading config is updated from the decision. -/
theorem advisory_defaults_amended :
    (∀ (p : ParsedDecision) (now : ℚ),
        (storeDecision p now).confidence = jsOrQ p.confidence (1 / 2) ∧
        (storeDecision p now).positionSize = jsOrQ p.positionSize (1 / 100)) ∧
    (∀ (p : ParsedDecision) (now : ℚ), p.confidence = none →
        (storeDecision p now).confidence = 1 / 2) ∧
    (∀ (p : ParsedDecision) (now : ℚ), p.positionSize = none →
        (storeDecision p now).positionSize = 1 / 100) ∧
    (∀ now : ℚ,
        0 ≤ (storeDecision leadLLMErrorFallback now).confidence ∧
        (storeDecision leadLLMErrorFallback now).confidence ≤ 1 ∧
        1 / 200 ≤ (storeDecision leadLLMErrorFallback now).positionSize ∧
        (storeDecision leadLLMErrorFallback now).positionSize ≤ 1 / 20) ∧
    (∀ (cfg : TradingConfig) (d : StoredDecision),
        (updateConfigFromDecision cfg d).riskPerTrade ≤ 1 / 20) := by
  refine ⟨fun p now => ⟨rfl, rfl⟩, ?_, ?_, ?_, ?_⟩
  · intro p now h
    simp [storeDecision, jsOrQ, h]
  · intro p now h
    simp [storeDecision, jsOrQ, h]
  · intro now
    norm_num [storeDecision, leadLLMErrorFallback, jsOrQ]
  · intro cfg d
    simp only [updateConfigFromDecision]
    exact min_le_left _ _

/-- Claim C7 (witness). -/
theorem advisory_defaults_amended_witness :
    (storeDecision ⟨none, none, none, none⟩ 0).confidence = 1 / 2 ∧
    (storeDecision ⟨none, none, none, none⟩ 0).positionSize = 1 / 100 :=
  ⟨advisory_defaults_amended.2.1 ⟨none, none, none, none⟩ 0 rfl,
   advisory_defaults_amended.2.2.1 ⟨none, none, none, none⟩ 0 rfl⟩

/-- Claim C8 (counterexample).  The claim's schedule predicts a delay of
`min(2·2^(k-1), 30)` seconds before the k-th consecutive reconnect; for
the second consecutive close (failCount 1) that is 4000 ms, but
`MarketDataService.handleClose` schedules a constant 2000 ms. -/
theorem backoff_counterexample :
    (handleClose ⟨1, false, false, false⟩).2 = some 2000 ∧
    ¬ (handleClose ⟨1, false, false, false⟩).2
        = some (min ((2000 : ℚ) * 2 ^ (2 - 1)) 30000) := by
  norm_num [handleClose, min_def]

/-- Claim C8 (amended).  `MarketDataService` schedules every reconnect a
constant 2000 ms after a close or error event (no doubling and no 30 s
cap), incrementing its failure count, and switches to the degraded polling
fallback once more than five consecutive failures accumulate.  The
exponential schedule `min(2·2^(k-1), 30)` seconds is implemented by the
separate `WeexWebSocket` client instead. -/
theorem reconnect_delay_amended :
    (∀ s : FeedConnState, s.reconnectPending = false →
        (handleClose s).2 = some 2000 ∧ (handleClose s).1.failCount = s.failCount + 1) ∧
    (∀ s : FeedConnState, s.reconnectPending = true → (handleClose s).2 = none) ∧
    (∀ s : FeedConnState, 5 < s.failCount → (connectAttempt s).pollingFallback = true) ∧
    (∀ k : ℕ, 1 ≤ k →
        weexWsReconnectDelayMs k = min ((2000 : ℚ) * 2 ^ (k - 1)) 30000) := by
  refine ⟨?_, ?_, ?_, ?_⟩
  · intro s h
    constructor <;> simp [handleClose, h]
  · intro s h
    simp [handleClose, h]
  · intro s h
    simp [connectAttempt, h]
  · intro k hk
    obtain ⟨m, rfl⟩ := Nat.exists_eq_add_of_le hk
    have hm : 1 + m - 1 = m := by omega
    rw [weexWsReconnectDelayMs, hm]
    congr 1
    rw [pow_add, pow_one]
    ring

/-- Claim C8 (witness). -/
theorem reconnect_delay_amended_witness :
    (handleClose ⟨0, true, false, false⟩).2 = some 2000 ∧
    weexWsReconnectDelayMs 1 = min ((2000 : ℚ) * 2 ^ (1 - 1)) 30000 :=
  ⟨(reconnect_delay_amended.1 ⟨0, true, false, false⟩ rfl).1,
   reconnect_delay_amended.2.2.2 1 (le_refl 1)⟩

/-- Claim C9.  `calculateOBI` is total and bounded: for every order book
with nonnegative quantities and every level count the result lies in
`[-1, 1]`, and it is exactly 0 when the summed top-level bid and ask
quantities are both zero (the division is guarded by the zero-sum test). -/
theorem calculateOBI_bounded (ob : OrderBook) (levels : ℕ)
    (hb : ∀ l ∈ ob.bids, 0 ≤ l.quantity) (ha : ∀ l ∈ ob.asks, 0 ≤ l.quantity) :
    -1 ≤ calculateOBI ob levels ∧ calculateOBI ob levels ≤ 1 ∧
    (obBidQty ob levels = 0 → obAskQty ob levels = 0 → calculateOBI ob levels = 0) := by
  have hb0 : 0 ≤ obBidQty ob levels := by
    apply List.sum_nonneg
    intro x hx
    obtain ⟨l, hl, rfl⟩ := List.mem_map.mp hx
    exact hb l (List.take_subset _ _ hl)
  have ha0 : 0 ≤ obAskQty ob levels := by
    apply List.sum_nonneg
    intro x hx
    obtain ⟨l, hl, rfl⟩ := List.mem_map.mp hx
    exact ha l (List.take_subset _ _ hl)
  by_cases h : obBidQty ob levels + obAskQty ob levels = 0
  · unfold calculateOBI
    rw [if_pos h]
    norm_num
  · have hpos : 0 < obBidQty ob levels + obAskQty ob levels :=
      lt_of_le_of_ne (add_nonneg hb0 ha0) (Ne.symm h)
    refine ⟨?_, ?_, ?_⟩
    · unfold calculateOBI
      rw [if_neg h, le_div_iff₀ hpos]
      linarith
    · unfold calculateOBI
      rw [if_neg h, div_le_one hpos]
      linarith
    · intro h1 h2
      exact absurd (by rw [h1, h2, add_zero]) h

/-- Claim C9 (witness): a one-level book with bid quantity 2 and ask
quantity 1. -/
theorem calculateOBI_bounded_witness :
    -1 ≤ calculateOBI ⟨[⟨88000, 2⟩], [⟨88001, 1⟩], 0⟩ 10 ∧
    calculateOBI ⟨[⟨88000, 2⟩], [⟨88001, 1⟩], 0⟩ 10 ≤ 1 :=
  ⟨(calculateOBI_bounded ⟨[⟨88000, 2⟩], [⟨88001, 1⟩], 0⟩ 10
      (by intro l hl; simp at hl; rw [hl]; norm_num)
      (by intro l hl; simp at hl; rw [hl]; norm_num)).1,
   (calculateOBI_bounded ⟨[⟨88000, 2⟩], [⟨88001, 1⟩], 0⟩ 10
      (by intro l hl; simp at hl; rw [hl]; norm_num)
      (by intro l hl; simp at hl; rw [hl]; norm_num)).2.1⟩

/-- Claim C10.  Atomicity of a failed order dispatch: when the risk gate
rejects or the exchange call throws, `executeOrder` leaves
`currentPosition`, `lastExecutionTime` and the risk engine's
`positionSize` exactly as before the call (in particular the cooldown
timer does not start). -/
theorem executeOrder_failure_atomic (st : HotState) (side : Side) (size price now : ℚ)
    (ok : Bool)
    (h : (st.risk.canTrade side size price).1 = false ∨ ok = false) :
    (executeOrder st side size price now ok).currentPosition = st.currentPosition ∧
    (executeOrder st side size price now ok).lastExecutionTime = st.lastExecutionTime ∧
    (executeOrder st side size price now ok).risk.state.positionSize
      = st.risk.state.positionSize := by
  have hstate := canTrade_state_eq st.risk side size price
  simp only [executeOrder]
  by_cases hg : (st.risk.canTrade side size price).1 = false
  · rw [if_pos hg]
    exact ⟨rfl, rfl, by rw [hstate]⟩
  · have hok : ok = false := h.resolve_left hg
    rw [if_neg hg, if_pos hok]
    exact ⟨rfl, rfl, by rw [hstate]⟩

/-- Claim C10 (witness): a dispatch against a tripped risk engine changes
nothing. -/
theorem executeOrder_failure_atomic_witness :
    (executeOrder haltedHot Side.buy 1 2 3 true).currentPosition = haltedHot.currentPosition ∧
    (executeOrder haltedHot Side.buy 1 2 3 true).lastExecutionTime
      = haltedHot.lastExecutionTime ∧
    (executeOrder haltedHot Side.buy 1 2 3 true).risk.state.positionSize
      = haltedHot.risk.state.positionSize :=
  executeOrder_failure_atomic haltedHot Side.buy 1 2 3 true (Or.inl rfl)

end Fenyr
